import Mathlib

set_option maxRecDepth 40000

/-!
Verification development for the minimal WebSocket relay server
(ws-server.js): frame codec, per-read decode loop, and the in-memory
relay registry (rooms, clients) with its message dispatcher.

Buffers are modelled as lists of byte values (Nat, < 256 on the wire).
The payload string produced by Buffer.prototype.toString and consumed by
Buffer.from is modelled by its byte sequence; this is exact for the
ASCII / valid UTF-8 payloads used throughout.
-/

namespace WsRelay

/-- Decoded frame, mirroring the record returned by parseFrame. -/
structure Frame where
  fin : Bool
  opcode : Nat
  payload : List Nat
  frameLen : Nat
deriving Repr, DecidableEq

/-- Outcome of parseFrame: the JS function returns null when fewer than
2 bytes are buffered, throws a range error when a length-extension read
runs past the buffer (Buffer.readUInt16BE / readBigUInt64BE), and
otherwise returns a frame record. -/
inductive ParseResult where
  | incomplete
  | rangeError
  | frame (f : Frame)
deriving Repr, DecidableEq

/-- buffer.readUInt16BE(off): big-endian 16-bit read (bounds checked at
the call site, as Node throws there). -/
def readUInt16BE (b : List Nat) (off : Nat) : Nat :=
  b.getD off 0 * 256 + b.getD (off + 1) 0

/-- Number(buffer.readBigUInt64BE(off)): big-endian 64-bit read; the
source notes it assumes the value fits in a JS Number, and theorems
carry that bound. -/
def readUInt64BE (b : List Nat) (off : Nat) : Nat :=
  b.getD off 0 * 256 ^ 7 + b.getD (off + 1) 0 * 256 ^ 6 +
  b.getD (off + 2) 0 * 256 ^ 5 + b.getD (off + 3) 0 * 256 ^ 4 +
  b.getD (off + 4) 0 * 256 ^ 3 + b.getD (off + 5) 0 * 256 ^ 2 +
  b.getD (off + 6) 0 * 256 + b.getD (off + 7) 0

/-- In-place XOR unmasking loop of parseFrame: payload[i] ^= mask[i % 4].
When the mask slice is short (truncated buffer) the JS read yields
undefined, which ToInt32 turns into 0, so getD with default 0 is exact. -/
def unmask (mask : List Nat) (raw : List Nat) : List Nat :=
  raw.enum.map (fun p => p.2 ^^^ mask.getD (p.1 % 4) 0)

/-- Tail of parseFrame after the length extension has been resolved:
optional 4-byte mask key, then the payload slice (Buffer.slice clamps,
so a short buffer yields a short payload), then unmasking. -/
def parseTail (buffer : List Nat) (fin : Bool) (opcode : Nat) (masked : Bool)
    (payloadLen offset : Nat) : ParseResult :=
  let mask := if masked then (buffer.drop offset).take 4 else []
  let offset2 := if masked then offset + 4 else offset
  let raw := (buffer.drop offset2).take payloadLen
  let payload := if masked then unmask mask raw else raw
  .frame { fin := fin, opcode := opcode, payload := payload,
           frameLen := offset2 + payloadLen }

/-- parseFrame(buffer) from ws-server.js. -/
def parseFrame (buffer : List Nat) : ParseResult :=
  if buffer.length < 2 then .incomplete else
  let first := buffer.getD 0 0
  let second := buffer.getD 1 0
  let fin := (first &&& 0x80) != 0
  let opcode := first &&& 0x0f
  let masked := (second &&& 0x80) != 0
  let payloadLen0 := second &&& 0x7f
  if payloadLen0 = 126 then
    if buffer.length < 4 then .rangeError
    else parseTail buffer fin opcode masked (readUInt16BE buffer 2) 4
  else if payloadLen0 = 127 then
    if buffer.length < 10 then .rangeError
    else parseTail buffer fin opcode masked (readUInt64BE buffer 2) 10
  else parseTail buffer fin opcode masked payloadLen0 2

/-- buffer.writeUInt16BE: big-endian bytes of a 16-bit value. -/
def writeUInt16BE (n : Nat) : List Nat := [n / 256 % 256, n % 256]

/-- buffer.writeBigUInt64BE: big-endian bytes of a 64-bit value. -/
def writeUInt64BE (n : Nat) : List Nat :=
  [n / 256 ^ 7 % 256, n / 256 ^ 6 % 256, n / 256 ^ 5 % 256, n / 256 ^ 4 % 256,
   n / 256 ^ 3 % 256, n / 256 ^ 2 % 256, n / 256 % 256, n % 256]

/-- Generic server-side frame encoder following the wire format of
buildTextFrame: first byte is FIN bit plus opcode, then the
minimal-length length field with the mask bit clear, then the payload. -/
def encodeFrame (fin : Bool) (opcode : Nat) (payload : List Nat) : List Nat :=
  let b0 := (if fin then 0x80 else 0) + opcode
  let len := payload.length
  if len < 126 then b0 :: len :: payload
  else if len < 65536 then b0 :: 126 :: (writeUInt16BE len ++ payload)
  else b0 :: 127 :: (writeUInt64BE len ++ payload)

/-- buildTextFrame(str) from ws-server.js (payload given as its UTF-8
bytes): header byte 0x81 (FIN + text), minimal-length length field,
mask bit clear, raw payload appended. -/
def buildTextFrame (payload : List Nat) : List Nat :=
  let len := payload.length
  if len < 126 then 0x81 :: len :: payload
  else if len < 65536 then 0x81 :: 126 :: (writeUInt16BE len ++ payload)
  else 0x81 :: 127 :: (writeUInt64BE len ++ payload)

/-- The pong reply built inline in the data handler:
Buffer.concat of Buffer.from of the two-element array 0x8A, payload.length
(array entries are truncated mod 256) and the payload bytes. -/
def pongFrame (payload : List Nat) : List Nat :=
  0x8A :: payload.length % 256 :: payload

/-- Observable effects of one pass of the data-event loop. -/
inductive WsAction where
  | dispatch (payload : List Nat)
  | sendPong (bytes : List Nat)
  | closeConn
  | threw
deriving Repr, DecidableEq

/-- Per-frame effect dispatch of the data handler (non-close opcodes):
ping gets a pong, pong is ignored, text goes to handleJsonMessage,
anything else is dropped. -/
def frameActions (f : Frame) : List WsAction :=
  if f.opcode = 0x9 then [.sendPong (pongFrame f.payload)]
  else if f.opcode = 0xA then []
  else if f.opcode = 0x1 then [.dispatch f.payload]
  else []

/-- Result of running the while loop of the data handler. -/
structure LoopResult where
  frames : List Frame
  actions : List WsAction
  rest : List Nat
deriving Repr, DecidableEq

/-- The data-event while loop: while more than 2 bytes are buffered,
parse a frame, slice it off, and act on its opcode; close stops the
loop (cleanup plus socket.end), a null parse breaks, a range error
would propagate as a thrown exception. Fuel bounds the iteration count;
each iteration consumes at least 2 bytes so buffer length plus one
suffices. -/
def wsOnData : Nat → List Nat → LoopResult
  | 0, buf => ⟨[], [], buf⟩
  | fuel + 1, buf =>
    if 2 < buf.length then
      match parseFrame buf with
      | .frame f =>
        let rest := buf.drop f.frameLen
        if f.opcode = 0x8 then ⟨[f], [.closeConn], rest⟩
        else
          let r := wsOnData fuel rest
          ⟨f :: r.frames, frameActions f ++ r.actions, r.rest⟩
      | .rangeError => ⟨[], [.threw], buf⟩
      | .incomplete => ⟨[], [], buf⟩
    else ⟨[], [], buf⟩

/-- One data event delivered to an empty receive buffer. -/
def wsOnDataRun (buf : List Nat) : LoopResult :=
  wsOnData (buf.length + 1) buf

lemma land128_of_lt (n : Nat) (h : n < 128) : n &&& 128 = 0 := by
  have key : ∀ m, m < 128 → m &&& 128 = 0 := by decide
  exact key n h

lemma land127_of_lt (n : Nat) (h : n < 128) : n &&& 127 = n := by
  have key : ∀ m, m < 128 → m &&& 127 = m := by decide
  exact key n h

lemma headByte_fin (fin : Bool) (op : Nat) (h : op < 16) :
    ((((if fin then 128 else 0) + op) &&& 128) != 0) = fin := by
  cases fin
  · have h0 := land128_of_lt op (by omega)
    simp [h0]
  · have key : ∀ m, m < 16 → (((128 + m) &&& 128) != 0) = true := by decide
    simpa using key op h

lemma headByte_opcode (fin : Bool) (op : Nat) (h : op < 16) :
    ((if fin then 128 else 0) + op) &&& 15 = op := by
  cases fin
  · have key : ∀ m, m < 16 → m &&& 15 = m := by decide
    simpa using key op h
  · have key : ∀ m, m < 16 → (128 + m) &&& 15 = m := by decide
    simpa using key op h

/-- Unfolding of parseFrame on a buffer with at least two bytes. -/
lemma parseFrame_cons (b0 b1 : Nat) (rest : List Nat) :
    parseFrame (b0 :: b1 :: rest) =
      (if (b1 &&& 127) = 126 then
        if rest.length + 2 < 4 then .rangeError
        else parseTail (b0 :: b1 :: rest) ((b0 &&& 128) != 0) (b0 &&& 15)
          ((b1 &&& 128) != 0) (readUInt16BE (b0 :: b1 :: rest) 2) 4
      else if (b1 &&& 127) = 127 then
        if rest.length + 2 < 10 then .rangeError
        else parseTail (b0 :: b1 :: rest) ((b0 &&& 128) != 0) (b0 &&& 15)
          ((b1 &&& 128) != 0) (readUInt64BE (b0 :: b1 :: rest) 2) 10
      else parseTail (b0 :: b1 :: rest) ((b0 &&& 128) != 0) (b0 &&& 15)
        ((b1 &&& 128) != 0) (b1 &&& 127) 2) := by
  simp [parseFrame]

/-- Length of an encoded frame: minimal header plus payload. -/
lemma encodeFrame_length (fin : Bool) (op : Nat) (p : List Nat) :
    (encodeFrame fin op p).length =
      (if p.length < 126 then 2 else if p.length < 65536 then 4 else 10) + p.length := by
  by_cases h1 : p.length < 126
  · simp [encodeFrame, h1]; omega
  · by_cases h2 : p.length < 65536
    · simp [encodeFrame, h1, h2, writeUInt16BE]; omega
    · simp [encodeFrame, h1, h2, writeUInt64BE]; omega

lemma buildTextFrame_eq_encode (p : List Nat) :
    buildTextFrame p = encodeFrame true 1 p := rfl

/-- Decoding an encoded frame at the front of a buffer recovers the
frame exactly, consuming exactly the encoded length. -/
lemma parseFrame_encode_append (fin : Bool) (op : Nat) (p tail : List Nat)
    (hop : op < 16) (hlen : p.length < 2 ^ 53) :
    parseFrame (encodeFrame fin op p ++ tail) =
      .frame ⟨fin, op, p, (encodeFrame fin op p).length⟩ := by
  have hfin := headByte_fin fin op hop
  have hopc := headByte_opcode fin op hop
  by_cases h1 : p.length < 126
  · have e : encodeFrame fin op p = ((if fin then 128 else 0) + op) :: p.length :: p := by
      simp [encodeFrame, h1]
    rw [e]
    simp only [List.cons_append, parseFrame_cons]
    rw [land127_of_lt p.length (by omega)]
    rw [if_neg (by omega), if_neg (by omega)]
    rw [land128_of_lt p.length (by omega)]
    simp only [parseTail, bne_self_eq_false, if_neg Bool.false_ne_true, hfin, hopc,
      List.drop_succ_cons, List.drop_zero, List.take_left, List.length_cons]
    simp [Frame.mk.injEq]
    omega
  · by_cases h2 : p.length < 65536
    · have e : encodeFrame fin op p =
          ((if fin then 128 else 0) + op) :: 126 ::
            (p.length / 256 % 256) :: (p.length % 256) :: p := by
        simp [encodeFrame, h1, h2, writeUInt16BE]
      rw [e]
      simp only [List.cons_append, parseFrame_cons]
      rw [show (126 &&& 127) = 126 from by decide]
      rw [if_pos rfl, if_neg (by simp)]
      have hread : readUInt16BE
          (((if fin then 128 else 0) + op) :: 126 ::
            (p.length / 256 % 256) :: (p.length % 256) :: (p ++ tail)) 2 = p.length := by
        simp [readUInt16BE]; omega
      rw [hread]
      rw [show ((126 : Nat) &&& 128) = 0 from by decide]
      simp only [parseTail, bne_self_eq_false, if_neg Bool.false_ne_true, hfin, hopc,
        List.drop_succ_cons, List.drop_zero, List.take_left, List.length_cons]
      simp [Frame.mk.injEq]
      omega
    · have e : encodeFrame fin op p =
          ((if fin then 128 else 0) + op) :: 127 ::
            (p.length / 256 ^ 7 % 256) :: (p.length / 256 ^ 6 % 256) ::
            (p.length / 256 ^ 5 % 256) :: (p.length / 256 ^ 4 % 256) ::
            (p.length / 256 ^ 3 % 256) :: (p.length / 256 ^ 2 % 256) ::
            (p.length / 256 % 256) :: (p.length % 256) :: p := by
        simp [encodeFrame, h1, h2, writeUInt64BE]
      rw [e]
      simp only [List.cons_append, parseFrame_cons]
      rw [show (127 &&& 127) = 127 from by decide]
      rw [if_neg (by decide), if_pos rfl, if_neg (by simp)]
      have hread : readUInt64BE
          (((if fin then 128 else 0) + op) :: 127 ::
            (p.length / 256 ^ 7 % 256) :: (p.length / 256 ^ 6 % 256) ::
            (p.length / 256 ^ 5 % 256) :: (p.length / 256 ^ 4 % 256) ::
            (p.length / 256 ^ 3 % 256) :: (p.length / 256 ^ 2 % 256) ::
            (p.length / 256 % 256) :: (p.length % 256) :: (p ++ tail)) 2 = p.length := by
        simp only [readUInt64BE, List.getD_cons_zero, List.getD_cons_succ]
        norm_num
        omega
      rw [hread]
      rw [show ((127 : Nat) &&& 128) = 0 from by decide]
      simp only [parseTail, bne_self_eq_false, if_neg Bool.false_ne_true, hfin, hopc,
        List.drop_succ_cons, List.drop_zero, List.take_left, List.length_cons]
      simp [Frame.mk.injEq]
      omega

/-- The data loop leaves a buffer of at most two bytes untouched. -/
lemma wsOnData_small (fuel : Nat) (buf : List Nat) (h : buf.length ≤ 2) :
    wsOnData fuel buf = ⟨[], [], buf⟩ := by
  cases fuel with
  | zero => rfl
  | succ k =>
      rw [wsOnData]
      rw [if_neg (by omega)]

/-- One iteration of the data loop on a non-close frame. -/
lemma wsOnData_step (fuel : Nat) (buf : List Nat) (f : Frame)
    (hfuel : 1 ≤ fuel) (hlen : 2 < buf.length)
    (hp : parseFrame buf = .frame f) (h8 : f.opcode ≠ 8) :
    wsOnData fuel buf =
      ⟨f :: (wsOnData (fuel - 1) (buf.drop f.frameLen)).frames,
       frameActions f ++ (wsOnData (fuel - 1) (buf.drop f.frameLen)).actions,
       (wsOnData (fuel - 1) (buf.drop f.frameLen)).rest⟩ := by
  obtain ⟨k, rfl⟩ : ∃ k, fuel = k + 1 := ⟨fuel - 1, by omega⟩
  simp [wsOnData, hlen, hp, h8]

/-- One iteration of the data loop on a close frame: stop, close. -/
lemma wsOnData_close_step (fuel : Nat) (buf : List Nat) (f : Frame)
    (hfuel : 1 ≤ fuel) (hlen : 2 < buf.length)
    (hp : parseFrame buf = .frame f) (h8 : f.opcode = 8) :
    wsOnData fuel buf = ⟨[f], [.closeConn], buf.drop f.frameLen⟩ := by
  obtain ⟨k, rfl⟩ : ∃ k, fuel = k + 1 := ⟨fuel - 1, by omega⟩
  simp [wsOnData, hlen, hp, h8]

/-- C1 counterexample: a well-formed text frame with the mask-present bit
clear is not rejected: the data handler parses it, hands its payload to the
relay dispatcher, and does not close the connection (no closeConn action). -/
theorem claim1_cex :
    wsOnDataRun [0x81, 2, 123, 125] =
      ⟨[⟨true, 1, [123, 125], 4⟩], [.dispatch [123, 125]], []⟩ ∧
    WsAction.closeConn ∉ (wsOnDataRun [0x81, 2, 123, 125]).actions := by decide

/-- C1 amended: a client-to-server text frame with the mask-present bit clear
is parsed like any other frame, its payload is taken verbatim (no unmasking)
and handed to the relay dispatcher, and the connection is not closed. -/
theorem claim1_amended (p : List Nat) (h0 : 0 < p.length) (hlen : p.length < 2 ^ 53) :
    wsOnDataRun (buildTextFrame p) =
      ⟨[⟨true, 1, p, (buildTextFrame p).length⟩], [.dispatch p], []⟩ := by
  have hp := parseFrame_encode_append true 1 p [] (by omega) hlen
  rw [List.append_nil, ← buildTextFrame_eq_encode] at hp
  have hlen2 : 2 < (buildTextFrame p).length := by
    rw [buildTextFrame_eq_encode, encodeFrame_length]
    split
    · omega
    · split <;> omega
  unfold wsOnDataRun
  rw [wsOnData_step _ _ _ (by omega) hlen2 hp (show (1 : Nat) ≠ 8 by decide)]
  have hdrop : (buildTextFrame p).drop
      (Frame.mk true 1 p (buildTextFrame p).length).frameLen = [] := List.drop_length _
  rw [hdrop]
  simp [wsOnData_small, frameActions]

/-- C1 amended, witness at the two-byte JSON payload of an open and a close
brace. -/
theorem claim1_amended_witness :
    0 < ([123, 125] : List Nat).length ∧ ([123, 125] : List Nat).length < 2 ^ 53 ∧
    wsOnDataRun (buildTextFrame [123, 125]) =
      ⟨[⟨true, 1, [123, 125], (buildTextFrame [123, 125]).length⟩],
       [.dispatch [123, 125]], []⟩ :=
  ⟨by decide, by decide, claim1_amended [123, 125] (by decide) (by decide)⟩

/-- C2 counterexample: a buffer holding only the first 3 bytes of a frame
that declares a 5-byte payload is not signalled incomplete: parseFrame
returns a frame whose payload (1 byte) is shorter than the declared length,
and the data loop dispatches that spurious frame before the final byte has
arrived. -/
theorem claim2_cex :
    parseFrame [0x81, 5, 104] = .frame ⟨true, 1, [104], 7⟩ ∧
    wsOnDataRun [0x81, 5, 104] = ⟨[⟨true, 1, [104], 7⟩], [.dispatch [104]], []⟩ := by
  decide

/-- C2 amended: incomplete is signalled only when fewer than 2 bytes are
buffered; once the 2-byte header of a short-form frame is present, a
truncated buffer yields a frame whose payload is clamped to the available
bytes while frameLen still covers the declared length; a fully buffered
encoded frame decodes correctly in one piece. -/
theorem claim2_amended :
    (∀ buf : List Nat, buf.length < 2 → parseFrame buf = .incomplete) ∧
    (∀ (d : Nat) (p : List Nat), d < 126 → p.length < d →
      parseFrame (0x81 :: d :: p) = .frame ⟨true, 1, p, 2 + d⟩) ∧
    (∀ p : List Nat, p.length < 2 ^ 53 →
      parseFrame (buildTextFrame p) =
        .frame ⟨true, 1, p, (buildTextFrame p).length⟩) := by
  refine ⟨?_, ?_, ?_⟩
  · intro buf h
    simp [parseFrame, h]
  · intro d p hd hp
    have hfin : (((129 : Nat) &&& 128) != 0) = true := by decide
    have hopc : ((129 : Nat) &&& 15) = 1 := by decide
    rw [parseFrame_cons]
    rw [land127_of_lt d (by omega)]
    rw [if_neg (by omega), if_neg (by omega)]
    rw [land128_of_lt d (by omega)]
    simp only [parseTail, bne_self_eq_false, if_neg Bool.false_ne_true, hfin, hopc,
      List.drop_succ_cons, List.drop_zero]
    rw [List.take_of_length_le (by omega)]
  · intro p hlen
    have hp := parseFrame_encode_append true 1 p [] (by omega) hlen
    rwa [List.append_nil, ← buildTextFrame_eq_encode] at hp

/-- C2 amended, witness: an undersized buffer, a truncated frame, and a
complete two-byte-payload frame. -/
theorem claim2_amended_witness :
    parseFrame [0x81] = .incomplete ∧
    parseFrame (0x81 :: 5 :: [104]) = .frame ⟨true, 1, [104], 7⟩ ∧
    parseFrame (buildTextFrame [104, 105]) =
      .frame ⟨true, 1, [104, 105], (buildTextFrame [104, 105]).length⟩ :=
  ⟨claim2_amended.1 [0x81] (by decide),
   claim2_amended.2.1 5 [104] (by decide) (by decide),
   claim2_amended.2.2 [104, 105] (by decide)⟩

/-- C3: decoding an encoded text frame recovers final flag, text opcode and
the payload exactly, consuming exactly the encoded byte length; the encoder
emits the minimal-length header (2 bytes below 126, 4 below 65536, 10
otherwise) with the mask-present bit of the second byte clear. -/
theorem claim3_roundtrip (p : List Nat) (hlen : p.length < 2 ^ 53) :
    parseFrame (buildTextFrame p) =
      .frame ⟨true, 1, p, (buildTextFrame p).length⟩ ∧
    (buildTextFrame p).length =
      (if p.length < 126 then 2 else if p.length < 65536 then 4 else 10) + p.length ∧
    ((buildTextFrame p).getD 1 0) &&& 128 = 0 := by
  refine ⟨?_, ?_, ?_⟩
  · have hp := parseFrame_encode_append true 1 p [] (by omega) hlen
    rwa [List.append_nil, ← buildTextFrame_eq_encode] at hp
  · rw [buildTextFrame_eq_encode]
    exact encodeFrame_length true 1 p
  · by_cases h1 : p.length < 126
    · have e : buildTextFrame p = 0x81 :: p.length :: p := by
        simp [buildTextFrame, h1]
      rw [e]
      simp only [List.getD_cons_succ, List.getD_cons_zero]
      exact land128_of_lt p.length (by omega)
    · by_cases h2 : p.length < 65536
      · have e : buildTextFrame p = 0x81 :: 126 :: (writeUInt16BE p.length ++ p) := by
          simp [buildTextFrame, h1, h2]
        rw [e]
        simp only [List.getD_cons_succ, List.getD_cons_zero]
        decide
      · have e : buildTextFrame p = 0x81 :: 127 :: (writeUInt64BE p.length ++ p) := by
          simp [buildTextFrame, h1, h2]
        rw [e]
        simp only [List.getD_cons_succ, List.getD_cons_zero]
        decide

/-- C3 witness at a 200-byte payload (2-byte length-extension form). -/
theorem claim3_roundtrip_witness :
    (List.replicate 200 120).length < 2 ^ 53 ∧
    (parseFrame (buildTextFrame (List.replicate 200 120)) =
        .frame ⟨true, 1, List.replicate 200 120,
          (buildTextFrame (List.replicate 200 120)).length⟩ ∧
      (buildTextFrame (List.replicate 200 120)).length =
        (if (List.replicate 200 120).length < 126 then 2
         else if (List.replicate 200 120).length < 65536 then 4 else 10) +
          (List.replicate 200 120).length ∧
      ((buildTextFrame (List.replicate 200 120)).getD 1 0) &&& 128 = 0) :=
  ⟨by decide, claim3_roundtrip (List.replicate 200 120) (by decide)⟩

/-- C4 counterexample: two concatenated complete zero-payload ping frames.
The while loop requires strictly more than 2 buffered bytes, so after the
first 2-byte frame is consumed the second complete 2-byte frame stays in the
receive buffer: only one frame is yielded and 2 leftover bytes remain. -/
theorem claim4_cex :
    wsOnDataRun ([0x89, 0] ++ [0x89, 0]) =
      ⟨[⟨true, 9, [], 2⟩], [.sendPong [0x8A, 0]], [0x89, 0]⟩ ∧
    (wsOnDataRun ([0x89, 0] ++ [0x89, 0])).rest ≠ [] := by decide

/-- C4 amended: concatenating two complete encoded frames and running the
per-read decode loop yields both frames, in order, with zero leftover bytes,
provided the first frame is not a close frame and the second frame is longer
than 2 bytes (nonempty payload); a trailing 2-byte frame stays buffered. -/
theorem claim4_amended (f1 : Bool) (op1 : Nat) (p1 : List Nat)
    (f2 : Bool) (op2 : Nat) (p2 : List Nat)
    (hop1 : op1 < 16) (hop2 : op2 < 16) (h8 : op1 ≠ 8)
    (hl1 : p1.length < 2 ^ 53) (hl2 : p2.length < 2 ^ 53) (hp2 : 0 < p2.length) :
    (wsOnDataRun (encodeFrame f1 op1 p1 ++ encodeFrame f2 op2 p2)).frames =
      [⟨f1, op1, p1, (encodeFrame f1 op1 p1).length⟩,
       ⟨f2, op2, p2, (encodeFrame f2 op2 p2).length⟩] ∧
    (wsOnDataRun (encodeFrame f1 op1 p1 ++ encodeFrame f2 op2 p2)).rest = [] := by
  have he1 := encodeFrame_length f1 op1 p1
  have he2 := encodeFrame_length f2 op2 p2
  have hlen1 : 2 ≤ (encodeFrame f1 op1 p1).length := by
    rw [he1]; split
    · omega
    · split <;> omega
  have hlen2 : 2 < (encodeFrame f2 op2 p2).length := by
    rw [he2]; split
    · omega
    · split <;> omega
  have hbuf : 2 < (encodeFrame f1 op1 p1 ++ encodeFrame f2 op2 p2).length := by
    rw [List.length_append]; omega
  have hp1 := parseFrame_encode_append f1 op1 p1 (encodeFrame f2 op2 p2) hop1 hl1
  have hq2 := parseFrame_encode_append f2 op2 p2 [] hop2 hl2
  rw [List.append_nil] at hq2
  unfold wsOnDataRun
  rw [wsOnData_step _ _ _ (by omega) hbuf hp1 h8]
  have hdrop : (encodeFrame f1 op1 p1 ++ encodeFrame f2 op2 p2).drop
      (Frame.mk f1 op1 p1 (encodeFrame f1 op1 p1).length).frameLen =
      encodeFrame f2 op2 p2 := List.drop_left _ _
  rw [hdrop]
  by_cases hc : op2 = 8
  · rw [wsOnData_close_step _ _ _ (by omega) hlen2 hq2 hc]
    have hdrop2 : (encodeFrame f2 op2 p2).drop
        (Frame.mk f2 op2 p2 (encodeFrame f2 op2 p2).length).frameLen = [] :=
      List.drop_length _
    rw [hdrop2]
    exact ⟨rfl, rfl⟩
  · rw [wsOnData_step _ _ _ (by omega) hlen2 hq2 hc]
    have hdrop2 : (encodeFrame f2 op2 p2).drop
        (Frame.mk f2 op2 p2 (encodeFrame f2 op2 p2).length).frameLen = [] :=
      List.drop_length _
    rw [hdrop2, wsOnData_small _ _ (by simp)]
    exact ⟨rfl, rfl⟩

/-- C4 amended, witness: a one-byte ping frame followed by a one-byte text
frame, both decoded in one read with empty leftover. -/
theorem claim4_amended_witness :
    (9 : Nat) < 16 ∧ (1 : Nat) < 16 ∧ (9 : Nat) ≠ 8 ∧
    ([7] : List Nat).length < 2 ^ 53 ∧ ([104] : List Nat).length < 2 ^ 53 ∧
    0 < ([104] : List Nat).length ∧
    ((wsOnDataRun (encodeFrame true 9 [7] ++ encodeFrame true 1 [104])).frames =
      [⟨true, 9, [7], (encodeFrame true 9 [7]).length⟩,
       ⟨true, 1, [104], (encodeFrame true 1 [104]).length⟩] ∧
     (wsOnDataRun (encodeFrame true 9 [7] ++ encodeFrame true 1 [104])).rest = []) :=
  ⟨by decide, by decide, by decide, by decide, by decide, by decide,
   claim4_amended true 9 [7] true 1 [104]
     (by decide) (by decide) (by decide) (by decide) (by decide) (by decide)⟩

/-- C6, evaluated at the failing input: an unmasked ping frame carrying a
126-byte payload. The handler builds its pong header as the raw bytes 0x8A
and payload length, so the emitted frame declares length 126 which the frame
format reads as a 16-bit length-extension marker: decoding the emitted pong
yields opcode pong but a 24929-byte declared length and a truncated 124-byte
payload, not the original 126 bytes, so the reply is not a well-formed pong
carrying the identical payload. -/
theorem claim6_code_bug :
    wsOnDataRun (0x89 :: 126 :: 0 :: 126 :: List.replicate 126 97) =
      ⟨[⟨true, 9, List.replicate 126 97, 130⟩],
       [.sendPong (0x8A :: 126 :: List.replicate 126 97)], []⟩ ∧
    parseFrame (0x8A :: 126 :: List.replicate 126 97) =
      .frame ⟨true, 10, List.replicate 124 97, 24933⟩ ∧
    parseFrame (0x8A :: 126 :: List.replicate 126 97) ≠
      .frame ⟨true, 10, List.replicate 126 97, 128⟩ := by decide

/-! ### Relay registry and dispatcher

clients is a Map from clientId to a record with a rooms Set, a name, and
the socket (modelled by its destroyed flag); rooms is a Map from room name
to a Set of clientIds. JS Maps and Sets keep insertion order, so both are
modelled as association lists / lists with the corresponding operations. -/

/-- Map.prototype.get. -/
def mapGet {α : Type} (m : List (String × α)) (k : String) : Option α :=
  match m with
  | [] => none
  | (k2, v) :: rest => if k2 = k then some v else mapGet rest k

/-- Map.prototype.set (replace the existing binding or append a new one). -/
def mapSet {α : Type} (m : List (String × α)) (k : String) (v : α) :
    List (String × α) :=
  match m with
  | [] => [(k, v)]
  | (k2, v2) :: rest => if k2 = k then (k, v) :: rest else (k2, v2) :: mapSet rest k v

/-- Map.prototype.delete. -/
def mapDel {α : Type} (m : List (String × α)) (k : String) : List (String × α) :=
  match m with
  | [] => []
  | (k2, v2) :: rest => if k2 = k then rest else (k2, v2) :: mapDel rest k

/-- Set.prototype.add. -/
def setAdd (s : List String) (x : String) : List String :=
  if x ∈ s then s else s ++ [x]

/-- Set.prototype.delete. -/
def setDel (s : List String) (x : String) : List String :=
  s.filter (fun y => y != x)

/-- One connection record of the clients map: room-name set, display name
(starts as the client identifier), and the socket.destroyed flag. -/
structure Client where
  rooms : List String
  name : String
  destroyed : Bool
deriving Repr, DecidableEq

/-- The two process-wide maps of the server. -/
structure ServerState where
  clients : List (String × Client)
  rooms : List (String × List String)
deriving Repr, DecidableEq

/-- A parsed client JSON object, with the fields the dispatcher reads;
a missing JSON field is none. -/
structure JsonMsg where
  type : Option String := none
  room : Option String := none
  toId : Option String := none
  text : Option String := none
  name : Option String := none
deriving Repr, DecidableEq

/-- A JSON object written back to a client. sentFrom and isPrivate model
the JSON fields named from and private; a none field is absent from the
serialized object. -/
structure ServerMsg where
  type : String
  room : Option String := none
  id : Option String := none
  sentFrom : Option String := none
  toId : Option String := none
  text : Option String := none
  message : Option String := none
  isPrivate : Bool := false
  members : Option (List (String × Option String)) := none
deriving Repr, DecidableEq

/-- An observable write of one encoded message to one connection. -/
inductive Event where
  | send (toId : String) (msg : ServerMsg)
deriving Repr, DecidableEq

/-- JS truthiness of a possibly-missing string field: undefined and the
empty string are falsy. -/
def jsTruthy (v : Option String) : Bool :=
  match v with
  | none => false
  | some s => s != ""

/-- The idiom field-or-default: v a possibly-missing string, d its default. -/
def jsOr (v : Option String) (d : String) : String :=
  match v with
  | none => d
  | some s => if s = "" then d else s

/-- sendToClient: look the target up; silently drop the write when the
client is unknown or its socket destroyed. -/
def sendToClient (cs : List (String × Client)) (clientId : String)
    (msg : ServerMsg) : List Event :=
  match mapGet cs clientId with
  | none => []
  | some c => if c.destroyed then [] else [.send clientId msg]

/-- broadcastRoom: write the frame to every member of the room except
excludeId whose connection is live; no room, no writes. -/
def broadcastRoom (cs : List (String × Client)) (rs : List (String × List String))
    (room : String) (msg : ServerMsg) (excludeId : String) : List Event :=
  match mapGet rs room with
  | none => []
  | some s =>
    s.filterMap (fun cid =>
      if cid = excludeId then none
      else match mapGet cs cid with
        | none => none
        | some c => if c.destroyed then none else some (.send cid msg))

/-- handleJsonMessage from ws-server.js, returning the mutated state and
the writes performed, in order. none models a JSON.parse failure. When the
clientId is not registered the join/leave branches of the JS code throw on
the first client field access, before or after a room-map mutation that is
a no-op for a never-registered id; the connection handler only dispatches
for registered ids, so this is modelled as no mutation and no writes. -/
def handleJsonMessage (st : ServerState) (clientId : String)
    (data : Option JsonMsg) : ServerState × List Event :=
  match data with
  | none =>
    (st, sendToClient st.clients clientId { type := "error", message := some "invalid_json" })
  | some parsed =>
    match mapGet st.clients clientId with
    | none => (st, [])
    | some client =>
      if parsed.type = some "join" then
        let room := jsOr parsed.room "lobby"
        let nm := jsOr parsed.name (jsOr (some client.name) clientId)
        let client2 : Client :=
          { rooms := setAdd client.rooms room, name := nm, destroyed := client.destroyed }
        let cs2 := mapSet st.clients clientId client2
        let rs2 := mapSet st.rooms room (setAdd ((mapGet st.rooms room).getD []) clientId)
        (⟨cs2, rs2⟩,
         sendToClient cs2 clientId
             { type := "joined", room := some room, id := some clientId } ++
           broadcastRoom cs2 rs2 room
             { type := "notice", message := some (nm ++ " joined"),
               sentFrom := some clientId } clientId)
      else if parsed.type = some "leave" then
        let room := (parsed.room).getD ""
        if jsTruthy parsed.room then
          match mapGet st.rooms room with
          | none => (st, [])
          | some s =>
            let rs2 := mapSet st.rooms room (setDel s clientId)
            let client2 : Client :=
              { rooms := setDel client.rooms room, name := client.name,
                destroyed := client.destroyed }
            let cs2 := mapSet st.clients clientId client2
            (⟨cs2, rs2⟩,
             sendToClient cs2 clientId { type := "left", room := some room } ++
               broadcastRoom cs2 rs2 room
                 { type := "notice", message := some (client.name ++ " left"),
                   sentFrom := some clientId } clientId)
        else (st, [])
      else if parsed.type = some "msg" then
        if jsTruthy parsed.toId then
          let toId := (parsed.toId).getD ""
          (st, sendToClient st.clients toId
                 { type := "msg", sentFrom := some clientId, text := parsed.text,
                   isPrivate := true } ++
               sendToClient st.clients clientId
                 { type := "msg", sentFrom := some clientId, toId := some toId,
                   text := parsed.text, isPrivate := true })
        else if jsTruthy parsed.room then
          let room := (parsed.room).getD ""
          (st, broadcastRoom st.clients st.rooms room
                 { type := "msg", sentFrom := some clientId, text := parsed.text,
                   room := some room } clientId)
        else
          (st, sendToClient st.clients clientId
                 { type := "error", message := some "no_room" })
      else if parsed.type = some "list" then
        let room := jsOr parsed.room "lobby"
        let s := (mapGet st.rooms room).getD []
        let members := s.map (fun id => (id, (mapGet st.clients id).map Client.name))
        (st, sendToClient st.clients clientId
               { type := "list", room := some room, members := some members })
      else
        (st, sendToClient st.clients clientId
               { type := "error", message := some "unknown_type" })

/-- The room loop of cleanupClient: for every room of the leaving client
that exists in the rooms map, remove the client from the member set and
then broadcast the disconnect notice to the remaining members (the clients
map is unchanged during the loop; the broadcast excludes the leaver). -/
def cleanupRooms (cs : List (String × Client)) (clientId nm : String) :
    List String → List (String × List String) →
      List (String × List String) × List Event
  | [], rs => (rs, [])
  | r :: rest, rs =>
    match mapGet rs r with
    | none => cleanupRooms cs clientId nm rest rs
    | some s =>
      let rs2 := mapSet rs r (setDel s clientId)
      let evs := broadcastRoom cs rs2 r
        { type := "notice", message := some (nm ++ " disconnected"),
          sentFrom := some clientId } clientId
      let res := cleanupRooms cs clientId nm rest rs2
      (res.1, evs ++ res.2)

/-- cleanupClient from ws-server.js: a no-op for an unknown id; otherwise
remove the client from every room it joined, emitting disconnect notices,
destroy its socket and delete it from the clients map. -/
def cleanupClient (st : ServerState) (clientId : String) :
    ServerState × List Event :=
  match mapGet st.clients clientId with
  | none => (st, [])
  | some client =>
    let res := cleanupRooms st.clients clientId client.name client.rooms st.rooms
    (⟨mapDel st.clients clientId, res.1⟩, res.2)

lemma mapGet_mapSet {α : Type} (m : List (String × α)) (k k2 : String) (v : α) :
    mapGet (mapSet m k v) k2 = if k2 = k then some v else mapGet m k2 := by
  induction m with
  | nil =>
    by_cases h : k2 = k
    · subst h; simp [mapGet, mapSet]
    · simp [mapGet, mapSet, h, Ne.symm h]
  | cons hd tl ih =>
    obtain ⟨k3, v3⟩ := hd
    by_cases h3 : k3 = k
    · subst h3
      by_cases h : k2 = k3
      · subst h; simp [mapGet, mapSet]
      · simp [mapGet, mapSet, h, Ne.symm h]
    · by_cases h2 : k3 = k2
      · subst h2
        simp [mapGet, mapSet, h3]
      · simp [mapGet, mapSet, h3, h2, ih]

lemma mapGet_eq_none {α : Type} (m : List (String × α)) (k : String)
    (h : k ∉ m.map Prod.fst) : mapGet m k = none := by
  induction m with
  | nil => rfl
  | cons hd tl ih =>
    obtain ⟨k3, v3⟩ := hd
    simp only [List.map_cons, List.mem_cons] at h
    push_neg at h
    simp [mapGet, Ne.symm h.1, ih h.2]

lemma mapGet_mapDel_ne {α : Type} (m : List (String × α)) (k k2 : String)
    (h : k2 ≠ k) : mapGet (mapDel m k) k2 = mapGet m k2 := by
  induction m with
  | nil => rfl
  | cons hd tl ih =>
    obtain ⟨k3, v3⟩ := hd
    by_cases h3 : k3 = k
    · subst h3
      simp [mapGet, mapDel, Ne.symm h]
    · simp [mapGet, mapDel, h3, ih]

lemma mapGet_mapDel_self {α : Type} (m : List (String × α)) (k : String)
    (hnd : (m.map Prod.fst).Nodup) : mapGet (mapDel m k) k = none := by
  induction m with
  | nil => rfl
  | cons hd tl ih =>
    obtain ⟨k3, v3⟩ := hd
    simp only [List.map_cons, List.nodup_cons] at hnd
    by_cases h3 : k3 = k
    · subst h3
      have e : mapDel ((k3, v3) :: tl) k3 = tl := by simp [mapDel]
      rw [e]
      exact mapGet_eq_none tl k3 hnd.1
    · simp [mapDel, mapGet, h3, ih hnd.2]

lemma keys_mapSet_mem {α : Type} (m : List (String × α)) (k k2 : String) (v : α) :
    k2 ∈ (mapSet m k v).map Prod.fst ↔ k2 ∈ m.map Prod.fst ∨ k2 = k := by
  induction m with
  | nil => simp [mapSet]
  | cons hd tl ih =>
    obtain ⟨k3, v3⟩ := hd
    by_cases h3 : k3 = k
    · subst h3; simp [mapSet]; tauto
    · simp [mapSet, h3, ih]; tauto

lemma nodup_mapSet {α : Type} (m : List (String × α)) (k : String) (v : α)
    (h : (m.map Prod.fst).Nodup) : ((mapSet m k v).map Prod.fst).Nodup := by
  induction m with
  | nil => simp [mapSet]
  | cons hd tl ih =>
    obtain ⟨k3, v3⟩ := hd
    simp only [List.map_cons, List.nodup_cons] at h
    by_cases h3 : k3 = k
    · subst h3
      have e : mapSet ((k3, v3) :: tl) k3 v = (k3, v) :: tl := by simp [mapSet]
      rw [e]
      simp only [List.map_cons, List.nodup_cons]
      exact ⟨h.1, h.2⟩
    · simp only [mapSet, if_neg h3, List.map_cons, List.nodup_cons]
      refine ⟨?_, ih h.2⟩
      rw [keys_mapSet_mem]
      push_neg
      exact ⟨h.1, h3⟩

lemma keys_mapDel_sublist {α : Type} (m : List (String × α)) (k : String) :
    ((mapDel m k).map Prod.fst).Sublist (m.map Prod.fst) := by
  induction m with
  | nil => simp [mapDel]
  | cons hd tl ih =>
    obtain ⟨k3, v3⟩ := hd
    by_cases h3 : k3 = k
    · subst h3
      have e : mapDel ((k3, v3) :: tl) k3 = tl := by simp [mapDel]
      rw [e, List.map_cons]
      exact (List.sublist_cons_self _ _)
    · simp only [mapDel, if_neg h3, List.map_cons]
      exact ih.cons₂ _

lemma nodup_mapDel {α : Type} (m : List (String × α)) (k : String)
    (h : (m.map Prod.fst).Nodup) : ((mapDel m k).map Prod.fst).Nodup :=
  (keys_mapDel_sublist m k).nodup h

lemma mem_setAdd (s : List String) (x y : String) :
    y ∈ setAdd s x ↔ y ∈ s ∨ y = x := by
  by_cases h : x ∈ s
  · simp only [setAdd, if_pos h]
    constructor
    · exact Or.inl
    · rintro (hy | rfl)
      · exact hy
      · exact h
  · simp [setAdd, h]

lemma mem_setDel (s : List String) (x y : String) :
    y ∈ setDel s x ↔ y ∈ s ∧ y ≠ x := by
  simp [setDel, List.mem_filter, bne_iff_ne]

lemma setDel_idem (s : List String) (x : String) :
    setDel (setDel s x) x = setDel s x := by
  simp [setDel, List.filter_filter]

/-- Bidirectional consistency of the registry: an id is in a room member
set iff that room is in the client record room set, and every member id of
any room belongs to a registered connection. -/
def RegistryConsistent (st : ServerState) : Prop :=
  (∀ r s, mapGet st.rooms r = some s → ∀ cid, cid ∈ s →
    ∃ c, mapGet st.clients cid = some c ∧ r ∈ c.rooms) ∧
  (∀ cid c, mapGet st.clients cid = some c → ∀ r, r ∈ c.rooms →
    ∃ s, mapGet st.rooms r = some s ∧ cid ∈ s)

/-- Well-formedness of the two JS Maps: keys are unique. -/
def MapsWf (st : ServerState) : Prop :=
  (st.clients.map Prod.fst).Nodup ∧ (st.rooms.map Prod.fst).Nodup

lemma join_preserves (st : ServerState) (clientId room nm : String) (c : Client)
    (hc : mapGet st.clients clientId = some c)
    (hwf : MapsWf st) (hinv : RegistryConsistent st) :
    MapsWf ⟨mapSet st.clients clientId ⟨setAdd c.rooms room, nm, c.destroyed⟩,
            mapSet st.rooms room (setAdd ((mapGet st.rooms room).getD []) clientId)⟩ ∧
    RegistryConsistent
      ⟨mapSet st.clients clientId ⟨setAdd c.rooms room, nm, c.destroyed⟩,
       mapSet st.rooms room (setAdd ((mapGet st.rooms room).getD []) clientId)⟩ := by
  obtain ⟨hwc, hwr⟩ := hwf
  obtain ⟨h1, h2⟩ := hinv
  refine ⟨⟨nodup_mapSet _ _ _ hwc, nodup_mapSet _ _ _ hwr⟩, ?_, ?_⟩
  · intro r s hget cid hcid
    rw [mapGet_mapSet] at hget
    by_cases hr : r = room
    · subst hr
      rw [if_pos rfl] at hget
      have hs := Option.some.inj hget
      subst hs
      rw [mem_setAdd] at hcid
      rcases hcid with hmem | rfl
      · cases hm : mapGet st.rooms r with
        | none => rw [hm] at hmem; simp at hmem
        | some s1 =>
          rw [hm] at hmem
          simp only [Option.getD_some] at hmem
          obtain ⟨c2, hc2, hr2⟩ := h1 r s1 hm cid hmem
          by_cases hi : cid = clientId
          · subst hi
            refine ⟨⟨setAdd c.rooms r, nm, c.destroyed⟩, ?_, ?_⟩
            · rw [mapGet_mapSet, if_pos rfl]
            · exact (mem_setAdd _ _ _).mpr (Or.inr rfl)
          · exact ⟨c2, by rw [mapGet_mapSet, if_neg hi]; exact hc2, hr2⟩
      · refine ⟨⟨setAdd c.rooms r, nm, c.destroyed⟩, ?_, ?_⟩
        · rw [mapGet_mapSet, if_pos rfl]
        · exact (mem_setAdd _ _ _).mpr (Or.inr rfl)
    · rw [if_neg hr] at hget
      obtain ⟨c2, hc2, hr2⟩ := h1 r s hget cid hcid
      by_cases hi : cid = clientId
      · subst hi
        have hcc : c = c2 := by
          rw [hc] at hc2
          exact Option.some.inj hc2
        refine ⟨⟨setAdd c.rooms room, nm, c.destroyed⟩, ?_, ?_⟩
        · rw [mapGet_mapSet, if_pos rfl]
        · exact (mem_setAdd _ _ _).mpr (Or.inl (hcc ▸ hr2))
      · exact ⟨c2, by rw [mapGet_mapSet, if_neg hi]; exact hc2, hr2⟩
  · intro cid c2 hget r hr
    rw [mapGet_mapSet] at hget
    by_cases hi : cid = clientId
    · rw [if_pos hi] at hget
      have hc2 : c2 = ⟨setAdd c.rooms room, nm, c.destroyed⟩ := (Option.some.inj hget).symm
      subst hc2
      subst hi
      have hr2 : r ∈ setAdd c.rooms room := hr
      by_cases hrr : r = room
      · subst hrr
        refine ⟨setAdd ((mapGet st.rooms r).getD []) cid, ?_, ?_⟩
        · rw [mapGet_mapSet, if_pos rfl]
        · exact (mem_setAdd _ _ _).mpr (Or.inr rfl)
      · have hr3 : r ∈ c.rooms := by
          rcases (mem_setAdd _ _ _).mp hr2 with h | h
          · exact h
          · exact absurd h hrr
        obtain ⟨s1, hs1, hm1⟩ := h2 cid c hc r hr3
        exact ⟨s1, by rw [mapGet_mapSet, if_neg hrr]; exact hs1, hm1⟩
    · rw [if_neg hi] at hget
      obtain ⟨s1, hs1, hm1⟩ := h2 cid c2 hget r hr
      by_cases hrr : r = room
      · subst hrr
        refine ⟨setAdd ((mapGet st.rooms r).getD []) clientId, ?_, ?_⟩
        · rw [mapGet_mapSet, if_pos rfl]
        · refine (mem_setAdd _ _ _).mpr (Or.inl ?_)
          rw [hs1]
          simpa using hm1
      · exact ⟨s1, by rw [mapGet_mapSet, if_neg hrr]; exact hs1, hm1⟩

lemma leave_preserves (st : ServerState) (clientId room : String) (c : Client)
    (s : List String)
    (hc : mapGet st.clients clientId = some c)
    (hs : mapGet st.rooms room = some s)
    (hwf : MapsWf st) (hinv : RegistryConsistent st) :
    MapsWf ⟨mapSet st.clients clientId ⟨setDel c.rooms room, c.name, c.destroyed⟩,
            mapSet st.rooms room (setDel s clientId)⟩ ∧
    RegistryConsistent
      ⟨mapSet st.clients clientId ⟨setDel c.rooms room, c.name, c.destroyed⟩,
       mapSet st.rooms room (setDel s clientId)⟩ := by
  obtain ⟨hwc, hwr⟩ := hwf
  obtain ⟨h1, h2⟩ := hinv
  refine ⟨⟨nodup_mapSet _ _ _ hwc, nodup_mapSet _ _ _ hwr⟩, ?_, ?_⟩
  · intro r s2 hget cid hcid
    rw [mapGet_mapSet] at hget
    by_cases hr : r = room
    · subst hr
      rw [if_pos rfl] at hget
      have hseq := Option.some.inj hget
      subst hseq
      rw [mem_setDel] at hcid
      obtain ⟨hmem, hne⟩ := hcid
      obtain ⟨c2, hc2, hr2⟩ := h1 r s hs cid hmem
      exact ⟨c2, by rw [mapGet_mapSet, if_neg hne]; exact hc2, hr2⟩
    · rw [if_neg hr] at hget
      obtain ⟨c2, hc2, hr2⟩ := h1 r s2 hget cid hcid
      by_cases hi : cid = clientId
      · subst hi
        have hcc : c = c2 := by
          rw [hc] at hc2
          exact Option.some.inj hc2
        refine ⟨⟨setDel c.rooms room, c.name, c.destroyed⟩, ?_, ?_⟩
        · rw [mapGet_mapSet, if_pos rfl]
        · exact (mem_setDel _ _ _).mpr ⟨hcc ▸ hr2, hr⟩
      · exact ⟨c2, by rw [mapGet_mapSet, if_neg hi]; exact hc2, hr2⟩
  · intro cid c2 hget r hr
    rw [mapGet_mapSet] at hget
    by_cases hi : cid = clientId
    · rw [if_pos hi] at hget
      have hc2 : c2 = ⟨setDel c.rooms room, c.name, c.destroyed⟩ := (Option.some.inj hget).symm
      subst hc2
      subst hi
      have hr2 : r ∈ setDel c.rooms room := hr
      obtain ⟨hr3, hrr⟩ := (mem_setDel _ _ _).mp hr2
      obtain ⟨s1, hs1, hm1⟩ := h2 cid c hc r hr3
      exact ⟨s1, by rw [mapGet_mapSet, if_neg hrr]; exact hs1, hm1⟩
    · rw [if_neg hi] at hget
      obtain ⟨s1, hs1, hm1⟩ := h2 cid c2 hget r hr
      by_cases hrr : r = room
      · subst hrr
        have hseq : s1 = s := by
          rw [hs] at hs1
          exact (Option.some.inj hs1).symm
        subst hseq
        refine ⟨setDel s1 clientId, ?_, ?_⟩
        · rw [mapGet_mapSet, if_pos rfl]
        · exact (mem_setDel _ _ _).mpr ⟨hm1, hi⟩
      · exact ⟨s1, by rw [mapGet_mapSet, if_neg hrr]; exact hs1, hm1⟩

/-- Pointwise description of the rooms map after the cleanup loop: rooms
the client had joined lose the client from their member set, all other
entries are untouched. -/
lemma cleanupRooms_fst_get (cs : List (String × Client)) (clientId nm : String) :
    ∀ (rl : List String) (rs : List (String × List String)) (r : String),
      mapGet (cleanupRooms cs clientId nm rl rs).1 r =
        if r ∈ rl then (mapGet rs r).map (fun s => setDel s clientId)
        else mapGet rs r := by
  intro rl
  induction rl with
  | nil =>
    intro rs r
    simp [cleanupRooms]
  | cons r1 rest ih =>
    intro rs r
    by_cases hr1 : r = r1
    · subst hr1
      cases hm : mapGet rs r with
      | none =>
        simp only [cleanupRooms, hm]
        rw [ih]
        by_cases hr : r ∈ rest
        · simp [hr, hm]
        · simp [hr, hm]
      | some s =>
        simp only [cleanupRooms, hm]
        rw [ih]
        by_cases hr : r ∈ rest
        · simp [hr, hm, mapGet_mapSet, setDel_idem]
        · simp [hr, hm, mapGet_mapSet]
    · cases hm : mapGet rs r1 with
      | none =>
        simp only [cleanupRooms, hm]
        rw [ih]
        by_cases hr : r ∈ rest
        · simp [List.mem_cons, hr, hr1]
        · simp [List.mem_cons, hr, hr1]
      | some s =>
        simp only [cleanupRooms, hm]
        rw [ih, mapGet_mapSet, if_neg hr1]
        by_cases hr : r ∈ rest
        · simp [List.mem_cons, hr, hr1]
        · simp [List.mem_cons, hr, hr1]

lemma cleanupRooms_fst_nodup (cs : List (String × Client)) (clientId nm : String) :
    ∀ (rl : List String) (rs : List (String × List String)),
      (rs.map Prod.fst).Nodup →
      (((cleanupRooms cs clientId nm rl rs).1).map Prod.fst).Nodup := by
  intro rl
  induction rl with
  | nil =>
    intro rs h
    simpa [cleanupRooms] using h
  | cons r1 rest ih =>
    intro rs h
    cases hm : mapGet rs r1 with
    | none =>
      simp only [cleanupRooms, hm]
      exact ih rs h
    | some s =>
      simp only [cleanupRooms, hm]
      exact ih _ (nodup_mapSet _ _ _ h)

lemma cleanup_preserves (st : ServerState) (clientId : String) (c : Client)
    (hc : mapGet st.clients clientId = some c)
    (hwf : MapsWf st) (hinv : RegistryConsistent st) :
    MapsWf ⟨mapDel st.clients clientId,
            (cleanupRooms st.clients clientId c.name c.rooms st.rooms).1⟩ ∧
    RegistryConsistent
      ⟨mapDel st.clients clientId,
       (cleanupRooms st.clients clientId c.name c.rooms st.rooms).1⟩ := by
  obtain ⟨hwc, hwr⟩ := hwf
  obtain ⟨h1, h2⟩ := hinv
  refine ⟨⟨nodup_mapDel _ _ hwc, cleanupRooms_fst_nodup _ _ _ _ _ hwr⟩, ?_, ?_⟩
  · intro r s2 hget cid hcid
    rw [cleanupRooms_fst_get] at hget
    by_cases hr : r ∈ c.rooms
    · rw [if_pos hr] at hget
      cases hm : mapGet st.rooms r with
      | none =>
        rw [hm] at hget
        simp at hget
      | some s1 =>
        rw [hm] at hget
        simp only [Option.map_some'] at hget
        have hseq := Option.some.inj hget
        subst hseq
        obtain ⟨hmem, hne⟩ := (mem_setDel _ _ _).mp hcid
        obtain ⟨c2, hc2, hr2⟩ := h1 r s1 hm cid hmem
        exact ⟨c2, by rw [mapGet_mapDel_ne _ _ _ hne]; exact hc2, hr2⟩
    · rw [if_neg hr] at hget
      obtain ⟨c2, hc2, hr2⟩ := h1 r s2 hget cid hcid
      have hne : cid ≠ clientId := by
        intro he
        subst he
        have hcc : c2 = c := by
          rw [hc] at hc2
          exact (Option.some.inj hc2).symm
        exact hr (hcc ▸ hr2)
      exact ⟨c2, by rw [mapGet_mapDel_ne _ _ _ hne]; exact hc2, hr2⟩
  · intro cid c2 hget r hr
    have hne : cid ≠ clientId := by
      intro he
      subst he
      rw [mapGet_mapDel_self _ _ hwc] at hget
      exact Option.noConfusion hget
    rw [mapGet_mapDel_ne _ _ _ hne] at hget
    obtain ⟨s1, hs1, hm1⟩ := h2 cid c2 hget r hr
    rw [cleanupRooms_fst_get]
    by_cases hrc : r ∈ c.rooms
    · refine ⟨setDel s1 clientId, ?_, ?_⟩
      · rw [if_pos hrc, hs1]
        rfl
      · exact (mem_setDel _ _ _).mpr ⟨hm1, hne⟩
    · exact ⟨s1, by rw [if_neg hrc]; exact hs1, hm1⟩

/-- C7: after any dispatch of a decoded text message (join, leave, msg,
list, unknown kind, invalid JSON) and after any cleanup, the registry stays
bidirectionally consistent — an id is in a room member set iff the room is
in that client record room set — and every member id of any room belongs to
a registered connection; Map key uniqueness is preserved as well. -/
theorem claim7_registry_invariant (st : ServerState)
    (hwf : MapsWf st) (hinv : RegistryConsistent st) :
    (∀ clientId data,
      MapsWf (handleJsonMessage st clientId data).1 ∧
      RegistryConsistent (handleJsonMessage st clientId data).1) ∧
    (∀ clientId,
      MapsWf (cleanupClient st clientId).1 ∧
      RegistryConsistent (cleanupClient st clientId).1) := by
  constructor
  · intro clientId data
    cases data with
    | none => simpa [handleJsonMessage] using ⟨hwf, hinv⟩
    | some parsed =>
      cases hc : mapGet st.clients clientId with
      | none => simpa [handleJsonMessage, hc] using ⟨hwf, hinv⟩
      | some client =>
        by_cases ht1 : parsed.type = some "join"
        · have h := join_preserves st clientId (jsOr parsed.room "lobby")
            (jsOr parsed.name (jsOr (some client.name) clientId)) client hc hwf hinv
          simpa [handleJsonMessage, hc, ht1] using h
        · by_cases ht2 : parsed.type = some "leave"
          · by_cases htr : jsTruthy parsed.room = true
            · cases hs : mapGet st.rooms ((parsed.room).getD "") with
              | none =>
                simpa [handleJsonMessage, hc, ht1, ht2, htr, hs] using ⟨hwf, hinv⟩
              | some s =>
                have h := leave_preserves st clientId ((parsed.room).getD "")
                  client s hc hs hwf hinv
                simpa [handleJsonMessage, hc, ht1, ht2, htr, hs] using h
            · simpa [handleJsonMessage, hc, ht1, ht2, htr] using ⟨hwf, hinv⟩
          · by_cases ht3 : parsed.type = some "msg"
            · by_cases hto : jsTruthy parsed.toId = true
              · simpa [handleJsonMessage, hc, ht1, ht2, ht3, hto] using ⟨hwf, hinv⟩
              · by_cases hrm : jsTruthy parsed.room = true
                · simpa [handleJsonMessage, hc, ht1, ht2, ht3, hto, hrm] using ⟨hwf, hinv⟩
                · simpa [handleJsonMessage, hc, ht1, ht2, ht3, hto, hrm] using ⟨hwf, hinv⟩
            · by_cases ht4 : parsed.type = some "list"
              · simpa [handleJsonMessage, hc, ht1, ht2, ht3, ht4] using ⟨hwf, hinv⟩
              · simpa [handleJsonMessage, hc, ht1, ht2, ht3, ht4] using ⟨hwf, hinv⟩
  · intro clientId
    cases hc : mapGet st.clients clientId with
    | none => simpa [cleanupClient, hc] using ⟨hwf, hinv⟩
    | some client =>
      have h := cleanup_preserves st clientId client hc hwf hinv
      simpa [cleanupClient, hc] using h

lemma mapsWf_empty : MapsWf ⟨[], []⟩ :=
  ⟨List.nodup_nil, List.nodup_nil⟩

lemma registryConsistent_empty : RegistryConsistent ⟨[], []⟩ := by
  constructor
  · intro r s h
    simp [mapGet] at h
  · intro cid c h
    simp [mapGet] at h

/-- C7 witness at the empty registry. -/
theorem claim7_registry_invariant_witness :
    (MapsWf ⟨[], []⟩ ∧ RegistryConsistent ⟨[], []⟩) ∧
    ((∀ clientId data,
        MapsWf (handleJsonMessage ⟨[], []⟩ clientId data).1 ∧
        RegistryConsistent (handleJsonMessage ⟨[], []⟩ clientId data).1) ∧
      (∀ clientId,
        MapsWf (cleanupClient ⟨[], []⟩ clientId).1 ∧
        RegistryConsistent (cleanupClient ⟨[], []⟩ clientId).1)) :=
  ⟨⟨mapsWf_empty, registryConsistent_empty⟩,
   claim7_registry_invariant ⟨[], []⟩ mapsWf_empty registryConsistent_empty⟩

/-- C8: cleaning up a connection twice is a safe no-op the second time:
the second invocation changes nothing and emits nothing (so the disconnect
notices of the first invocation happen exactly once per joined room), and a
subsequent list on any room the connection had joined no longer shows its
identifier. -/
theorem claim8_cleanup_idempotent (st : ServerState) (clientId : String) (c : Client)
    (hwf : MapsWf st) (hc : mapGet st.clients clientId = some c) :
    (cleanupClient (cleanupClient st clientId).1 clientId =
      ((cleanupClient st clientId).1, [])) ∧
    (∀ r, r ∈ c.rooms → r ≠ "" → ∀ obs o,
      mapGet (cleanupClient st clientId).1.clients obs = some o →
      o.destroyed = false →
      ∃ members,
        handleJsonMessage (cleanupClient st clientId).1 obs
            (some ⟨some "list", some r, none, none, none⟩) =
          ((cleanupClient st clientId).1,
           [.send obs { type := "list", room := some r, members := some members }]) ∧
        ∀ x ∈ members, x.1 ≠ clientId) := by
  have hst1 : (cleanupClient st clientId).1 =
      ⟨mapDel st.clients clientId,
       (cleanupRooms st.clients clientId c.name c.rooms st.rooms).1⟩ := by
    simp [cleanupClient, hc]
  constructor
  · rw [hst1]
    have hnone : mapGet (mapDel st.clients clientId) clientId = none :=
      mapGet_mapDel_self _ _ hwf.1
    simp [cleanupClient, hnone]
  · intro r hr hrne obs o hobs hod
    rw [hst1] at hobs
    rw [hst1]
    refine ⟨((mapGet (cleanupRooms st.clients clientId c.name c.rooms st.rooms).1 r).getD
        []).map (fun cid => (cid, (mapGet (mapDel st.clients clientId) cid).map
          Client.name)), ?_, ?_⟩
    · simp [handleJsonMessage, hobs, jsOr, hrne, sendToClient, hod]
    · intro x hx
      rw [cleanupRooms_fst_get, if_pos hr] at hx
      cases hm : mapGet st.rooms r with
      | none =>
        rw [hm] at hx
        simp at hx
      | some s1 =>
        rw [hm] at hx
        simp only [Option.map_some', Option.getD_some, List.mem_map] at hx
        obtain ⟨cid, hcid, rfl⟩ := hx
        obtain ⟨_, hne⟩ := (mem_setDel _ _ _).mp hcid
        simpa using hne

/-- C8 witness on a registry with two members of room r1. -/
theorem claim8_cleanup_idempotent_witness :
    (MapsWf ⟨[("c1", ⟨["r1"], "c1", false⟩), ("c2", ⟨["r1"], "c2", false⟩)],
             [("r1", ["c1", "c2"])]⟩ ∧
     mapGet (⟨[("c1", ⟨["r1"], "c1", false⟩), ("c2", ⟨["r1"], "c2", false⟩)],
             [("r1", ["c1", "c2"])]⟩ : ServerState).clients "c1" =
       some ⟨["r1"], "c1", false⟩) ∧
    ((cleanupClient (cleanupClient ⟨[("c1", ⟨["r1"], "c1", false⟩),
          ("c2", ⟨["r1"], "c2", false⟩)], [("r1", ["c1", "c2"])]⟩ "c1").1 "c1" =
        ((cleanupClient ⟨[("c1", ⟨["r1"], "c1", false⟩),
          ("c2", ⟨["r1"], "c2", false⟩)], [("r1", ["c1", "c2"])]⟩ "c1").1, [])) ∧
     (∀ r, r ∈ (⟨["r1"], "c1", false⟩ : Client).rooms → r ≠ "" → ∀ obs o,
        mapGet (cleanupClient ⟨[("c1", ⟨["r1"], "c1", false⟩),
            ("c2", ⟨["r1"], "c2", false⟩)], [("r1", ["c1", "c2"])]⟩ "c1").1.clients obs =
          some o →
        o.destroyed = false →
        ∃ members,
          handleJsonMessage (cleanupClient ⟨[("c1", ⟨["r1"], "c1", false⟩),
              ("c2", ⟨["r1"], "c2", false⟩)], [("r1", ["c1", "c2"])]⟩ "c1").1 obs
              (some ⟨some "list", some r, none, none, none⟩) =
            ((cleanupClient ⟨[("c1", ⟨["r1"], "c1", false⟩),
              ("c2", ⟨["r1"], "c2", false⟩)], [("r1", ["c1", "c2"])]⟩ "c1").1,
             [.send obs { type := "list", room := some r, members := some members }]) ∧
          ∀ x ∈ members, x.1 ≠ "c1")) :=
  ⟨⟨⟨by decide, by decide⟩, by decide⟩,
   claim8_cleanup_idempotent _ "c1" ⟨["r1"], "c1", false⟩ ⟨by decide, by decide⟩
     (by decide)⟩

/-- C9: a join with no (or falsy) room field is not rejected: the room
defaults to lobby, the same default the list operation uses, so a join with
no room followed by a list with no room shows the sender as a member. -/
theorem claim9_join_list_default_lobby (st : ServerState) (clientId : String)
    (c : Client) (hc : mapGet st.clients clientId = some c)
    (hd : c.destroyed = false) :
    ∃ members,
      handleJsonMessage
          (handleJsonMessage st clientId (some ⟨some "join", none, none, none, none⟩)).1
          clientId (some ⟨some "list", none, none, none, none⟩) =
        ((handleJsonMessage st clientId (some ⟨some "join", none, none, none, none⟩)).1,
         [.send clientId { type := "list", room := some "lobby",
                           members := some members }]) ∧
      ∃ nm, (clientId, nm) ∈ members := by
  have hst1 : (handleJsonMessage st clientId
        (some ⟨some "join", none, none, none, none⟩)).1 =
      ⟨mapSet st.clients clientId
         ⟨setAdd c.rooms "lobby", if c.name = "" then clientId else c.name, c.destroyed⟩,
       mapSet st.rooms "lobby" (setAdd ((mapGet st.rooms "lobby").getD []) clientId)⟩ := by
    simp [handleJsonMessage, hc, jsOr]
  rw [hst1]
  refine ⟨(setAdd ((mapGet st.rooms "lobby").getD []) clientId).map
      (fun cid => (cid, (mapGet (mapSet st.clients clientId
        ⟨setAdd c.rooms "lobby", if c.name = "" then clientId else c.name,
         c.destroyed⟩) cid).map Client.name)), ?_, ?_⟩
  · simp [handleJsonMessage, mapGet_mapSet, jsOr, sendToClient, hd]
  · exact ⟨_, List.mem_map.mpr ⟨clientId, (mem_setAdd _ _ _).mpr (Or.inr rfl), rfl⟩⟩

/-- C9 witness: a fresh client joins with no room, then lists with no room
and appears among the lobby members. -/
theorem claim9_join_list_default_lobby_witness :
    (mapGet (⟨[("c1", ⟨[], "c1", false⟩)], []⟩ : ServerState).clients "c1" =
       some ⟨[], "c1", false⟩ ∧ (⟨[], "c1", false⟩ : Client).destroyed = false) ∧
    (∃ members,
      handleJsonMessage
          (handleJsonMessage ⟨[("c1", ⟨[], "c1", false⟩)], []⟩ "c1"
            (some ⟨some "join", none, none, none, none⟩)).1
          "c1" (some ⟨some "list", none, none, none, none⟩) =
        ((handleJsonMessage ⟨[("c1", ⟨[], "c1", false⟩)], []⟩ "c1"
            (some ⟨some "join", none, none, none, none⟩)).1,
         [.send "c1" { type := "list", room := some "lobby",
                       members := some members }]) ∧
      ∃ nm, ("c1", nm) ∈ members) :=
  ⟨⟨by decide, by decide⟩,
   claim9_join_list_default_lobby _ "c1" ⟨[], "c1", false⟩ (by decide) (by decide)⟩

/-- C10: a private msg whose target has no registered connection is
silently dropped for the target, while the private-tagged echo to the
sender is still sent: the echo does not depend on delivery success. -/
theorem claim10_private_echo (st : ServerState) (clientId target : String)
    (c : Client) (text : Option String)
    (hc : mapGet st.clients clientId = some c) (hd : c.destroyed = false)
    (htgt : mapGet st.clients target = none) (hne : target ≠ "") :
    handleJsonMessage st clientId (some ⟨some "msg", none, some target, text, none⟩) =
      (st, [.send clientId { type := "msg", sentFrom := some clientId,
                             toId := some target, text := text,
                             isPrivate := true }]) := by
  have htr : jsTruthy (some target) = true := by simp [jsTruthy, hne]
  simp [handleJsonMessage, hc, htr, sendToClient, htgt, hd]

/-- C10 witness: echo to the sender with an unknown target id. -/
theorem claim10_private_echo_witness :
    (mapGet (⟨[("c1", ⟨[], "c1", false⟩)], []⟩ : ServerState).clients "c1" =
       some ⟨[], "c1", false⟩ ∧ (⟨[], "c1", false⟩ : Client).destroyed = false ∧
     mapGet (⟨[("c1", ⟨[], "c1", false⟩)], []⟩ : ServerState).clients "zz" = none ∧
     ("zz" : String) ≠ "") ∧
    handleJsonMessage ⟨[("c1", ⟨[], "c1", false⟩)], []⟩ "c1"
        (some ⟨some "msg", none, some "zz", some "hi", none⟩) =
      (⟨[("c1", ⟨[], "c1", false⟩)], []⟩,
       [.send "c1" { type := "msg", sentFrom := some "c1", toId := some "zz",
                     text := some "hi", isPrivate := true }]) :=
  ⟨⟨by decide, by decide, by decide, by decide⟩,
   claim10_private_echo _ "c1" "zz" ⟨[], "c1", false⟩ (some "hi")
     (by decide) (by decide) (by decide) (by decide)⟩

/-- C5 counterexample: the dispatcher recognizes the kind "msg", not
"message": a JSON object of kind "message" with a room field is answered
with the unknown-kind error instead of being broadcast. -/
theorem claim5_cex :
    handleJsonMessage
        ⟨[("c1", ⟨[], "c1", false⟩), ("c2", ⟨["r"], "c2", false⟩)], [("r", ["c2"])]⟩
        "c1" (some ⟨some "message", some "r", none, some "hi", none⟩) =
      (⟨[("c1", ⟨[], "c1", false⟩), ("c2", ⟨["r"], "c2", false⟩)], [("r", ["c2"])]⟩,
       [.send "c1" { type := "error", message := some "unknown_type" }]) := by decide

/-- C5 amended: the broadcast message kind is "msg". A kind-"msg" payload
with a room field and no to field is broadcast to every other live member
of that room — with no membership check on the sender and no reply to the
sender — and the unknown-kind error is sent exactly for kinds outside join,
leave, msg and list (so in particular for the kind "message"). -/
theorem claim5_amended (st : ServerState) (clientId room : String)
    (text : Option String) (c : Client)
    (hc : mapGet st.clients clientId = some c) (hroom : room ≠ "") :
    (handleJsonMessage st clientId (some ⟨some "msg", some room, none, text, none⟩) =
      (st, broadcastRoom st.clients st.rooms room
            { type := "msg", sentFrom := some clientId, text := text,
              room := some room } clientId)) ∧
    (∀ s, mapGet st.rooms room = some s → ∀ m, m ∈ s → m ≠ clientId →
      ∀ mc, mapGet st.clients m = some mc → mc.destroyed = false →
      Event.send m { type := "msg", sentFrom := some clientId, text := text,
                     room := some room } ∈
        (handleJsonMessage st clientId
          (some ⟨some "msg", some room, none, text, none⟩)).2) ∧
    (∀ msg2, Event.send clientId msg2 ∉
      (handleJsonMessage st clientId
        (some ⟨some "msg", some room, none, text, none⟩)).2) ∧
    (∀ m2 : JsonMsg, m2.type ∉ [some "join", some "leave", some "msg", some "list"] →
      handleJsonMessage st clientId (some m2) =
        (st, sendToClient st.clients clientId
              { type := "error", message := some "unknown_type" })) := by
  have htr : jsTruthy (some room) = true := by simp [jsTruthy, hroom]
  have hmain : handleJsonMessage st clientId
      (some ⟨some "msg", some room, none, text, none⟩) =
      (st, broadcastRoom st.clients st.rooms room
            { type := "msg", sentFrom := some clientId, text := text,
              room := some room } clientId) := by
    simp [handleJsonMessage, hc, htr, jsTruthy, hroom]
  refine ⟨hmain, ?_, ?_, ?_⟩
  · intro s hs m hm hmne mc hmc hmcd
    rw [hmain]
    simp only [broadcastRoom, hs]
    exact List.mem_filterMap.mpr ⟨m, hm, by simp [hmne, hmc, hmcd]⟩
  · intro msg2 hmem2
    rw [hmain] at hmem2
    simp only [broadcastRoom] at hmem2
    cases hbm : mapGet st.rooms room with
    | none =>
      rw [hbm] at hmem2
      simp at hmem2
    | some s =>
      simp only [hbm] at hmem2
      obtain ⟨cid, hcid, hf⟩ := List.mem_filterMap.mp hmem2
      by_cases hcc : cid = clientId
      · rw [if_pos hcc] at hf
        exact Option.noConfusion hf
      · rw [if_neg hcc] at hf
        cases hmc : mapGet st.clients cid with
        | none =>
          simp only [hmc] at hf
          exact Option.noConfusion hf
        | some c2 =>
          simp only [hmc] at hf
          by_cases hd2 : c2.destroyed = true
          · rw [if_pos hd2] at hf
            exact Option.noConfusion hf
          · rw [if_neg hd2] at hf
            have heq := Option.some.inj hf
            simp only [Event.send.injEq] at heq
            exact hcc heq.1
  · intro m2 hne2
    simp only [List.mem_cons, List.not_mem_nil, or_false] at hne2
    push_neg at hne2
    obtain ⟨n1, n2, n3, n4⟩ := hne2
    simp [handleJsonMessage, hc, n1, n2, n3, n4]

/-- C5 amended, witness: kind msg from c1 into room r with one other live
member. -/
theorem claim5_amended_witness :
    (mapGet (⟨[("c1", ⟨[], "c1", false⟩), ("c2", ⟨["r"], "c2", false⟩)],
        [("r", ["c2"])]⟩ : ServerState).clients "c1" = some ⟨[], "c1", false⟩ ∧
     ("r" : String) ≠ "") ∧
    ((handleJsonMessage ⟨[("c1", ⟨[], "c1", false⟩), ("c2", ⟨["r"], "c2", false⟩)],
          [("r", ["c2"])]⟩ "c1" (some ⟨some "msg", some "r", none, some "hi", none⟩) =
        (⟨[("c1", ⟨[], "c1", false⟩), ("c2", ⟨["r"], "c2", false⟩)], [("r", ["c2"])]⟩,
         broadcastRoom (⟨[("c1", ⟨[], "c1", false⟩), ("c2", ⟨["r"], "c2", false⟩)],
              [("r", ["c2"])]⟩ : ServerState).clients
            (⟨[("c1", ⟨[], "c1", false⟩), ("c2", ⟨["r"], "c2", false⟩)],
              [("r", ["c2"])]⟩ : ServerState).rooms "r"
            { type := "msg", sentFrom := some "c1", text := some "hi",
              room := some "r" } "c1")) ∧
     (∀ s, mapGet (⟨[("c1", ⟨[], "c1", false⟩), ("c2", ⟨["r"], "c2", false⟩)],
          [("r", ["c2"])]⟩ : ServerState).rooms "r" = some s →
        ∀ m, m ∈ s → m ≠ "c1" →
        ∀ mc, mapGet (⟨[("c1", ⟨[], "c1", false⟩), ("c2", ⟨["r"], "c2", false⟩)],
          [("r", ["c2"])]⟩ : ServerState).clients m = some mc → mc.destroyed = false →
        Event.send m { type := "msg", sentFrom := some "c1", text := some "hi",
                       room := some "r" } ∈
          (handleJsonMessage ⟨[("c1", ⟨[], "c1", false⟩), ("c2", ⟨["r"], "c2", false⟩)],
            [("r", ["c2"])]⟩ "c1"
            (some ⟨some "msg", some "r", none, some "hi", none⟩)).2) ∧
     (∀ msg2, Event.send "c1" msg2 ∉
        (handleJsonMessage ⟨[("c1", ⟨[], "c1", false⟩), ("c2", ⟨["r"], "c2", false⟩)],
          [("r", ["c2"])]⟩ "c1"
          (some ⟨some "msg", some "r", none, some "hi", none⟩)).2) ∧
     (∀ m2 : JsonMsg, m2.type ∉ [some "join", some "leave", some "msg", some "list"] →
        handleJsonMessage ⟨[("c1", ⟨[], "c1", false⟩), ("c2", ⟨["r"], "c2", false⟩)],
            [("r", ["c2"])]⟩ "c1" (some m2) =
          (⟨[("c1", ⟨[], "c1", false⟩), ("c2", ⟨["r"], "c2", false⟩)], [("r", ["c2"])]⟩,
           sendToClient (⟨[("c1", ⟨[], "c1", false⟩), ("c2", ⟨["r"], "c2", false⟩)],
              [("r", ["c2"])]⟩ : ServerState).clients "c1"
             { type := "error", message := some "unknown_type" }))) :=
  ⟨⟨by decide, by decide⟩,
   claim5_amended _ "c1" "r" (some "hi") ⟨[], "c1", false⟩ (by decide) (by decide)⟩

end WsRelay
